import Mathlib

/-!
Verification of the `codeintel-implicit-conversion-checker` CLI dispatcher
(`src/main.py`) against its natural-language specification.

The repository is a single sequential procedure: `main` validates the target
path, dispatches on `--language`, and for `python` runs up to four external
tools (`bandit`, `flake8`, `pylint`, `pyre`) as subprocesses, collecting an
ordered mapping from tool name to raw standard output; results are printed
to the console and optionally written to a report file.

The embedding below is shallow: the operating system is a parameter
(`World` / `ToolEnv`), and each Python function (`analyze_python`,
`analyze_javascript`, `analyze_php`, `save_report`, `main`) becomes a pure
Lean function over it.  Python's `shlex.split` (used by the source to turn
the interpolated command strings into argument vectors) is embedded as the
POSIX-mode state machine of CPython's `Lib/shlex.py` restricted to the
configuration `shlex.split` actually uses (`posix=True`,
`whitespace_split=True`, default `whitespace`, `quotes`, `escape`,
`escapedquotes` and `commenters`).
-/

/-- The single-quote character (used instead of a character literal). -/
def squote : Char := Char.ofNat 39

/-- The double-quote character (used instead of a character literal). -/
def dquote : Char := Char.ofNat 34

/-- The backslash character, `shlex.escape`. -/
def bslash : Char := Char.ofNat 92

/-- A one-character string holding a single quote (for Python `repr` text). -/
def sqStr : String := String.mk [squote]

deriving instance DecidableEq for Except

/-- `shlex.whitespace = ' \t\r\n'`. -/
def isShWs (c : Char) : Bool := c = ' ' || c = Char.ofNat 9 || c = Char.ofNat 13 || c = Char.ofNat 10

/-- `shlex.quotes = '\'"'`. -/
def isShQuote (c : Char) : Bool := c = squote || c = dquote

/-- A character that the `shlex` scanner treats as ordinary word material:
not whitespace, not the escape character and not a quote character.
(`shlex.split` disables comment characters: `lex.commenters = ''`.) -/
def plainChar (c : Char) : Bool :=
  !(isShWs c) && !(c = bslash) && !(isShQuote c)

/-- Scanner states of CPython's `shlex.read_token` in POSIX mode:
`ws` is the initial/whitespace state `' '`, `word` is `'a'`, `quot q` is an
open quote `q`, and `esc fromQ` is the escape state (with `fromQ = some q`
when the escape was read inside the double quote `q`, matching
`escapedstate`). -/
inductive ShState where
  | ws
  | word
  | quot (q : Char)
  | esc (fromQ : Option Char)
deriving DecidableEq, Repr

/-- Emit the pending token, as `read_token` does at a whitespace break or at
end of input: a token is produced when the accumulated text is nonempty or a
quote was seen (`if self.token or (self.posix and quoted)`). -/
def shEmit (token : List Char) (quoted : Bool) (acc : List String) : List String :=
  if token ≠ [] ∨ quoted then acc ++ [String.mk token] else acc

/-- The `shlex.read_token` loop of CPython, iterated over the whole input
(as `shlex.split` does), in the configuration used by `shlex.split`:
`posix=True`, `whitespace_split=True`, `commenters=''`, `quotes='\'"'`,
`escape='\\'`, `escapedquotes='"'`.  Errors mirror the two `ValueError`s of
the source (`No closing quotation`, `No escaped character`). -/
def shlexRun : List Char → ShState → List Char → Bool → List String →
    Except String (List String)
  | [], .ws, token, quoted, acc => .ok (shEmit token quoted acc)
  | [], .word, token, quoted, acc => .ok (shEmit token quoted acc)
  | [], .quot _, _, _, _ => .error "No closing quotation"
  | [], .esc _, _, _, _ => .error "No escaped character"
  | c :: rest, .ws, token, quoted, acc =>
    if isShWs c then
      shlexRun rest .ws [] false (shEmit token quoted acc)
    else if c = bslash then
      shlexRun rest (.esc none) token quoted acc
    else if isShQuote c then
      shlexRun rest (.quot c) token true acc
    else
      shlexRun rest .word (token ++ [c]) quoted acc
  | c :: rest, .word, token, quoted, acc =>
    if isShWs c then
      shlexRun rest .ws [] false (shEmit token quoted acc)
    else if isShQuote c then
      shlexRun rest (.quot c) token true acc
    else if c = bslash then
      shlexRun rest (.esc none) token quoted acc
    else
      shlexRun rest .word (token ++ [c]) quoted acc
  | c :: rest, .quot q, token, quoted, acc =>
    if c = q then
      shlexRun rest .word token quoted acc
    else if q = dquote && c = bslash then
      shlexRun rest (.esc (some q)) token quoted acc
    else
      shlexRun rest (.quot q) (token ++ [c]) quoted acc
  | c :: rest, .esc fromQ, token, quoted, acc =>
    match fromQ with
    | none => shlexRun rest .word (token ++ [c]) quoted acc
    | some q =>
      if c ≠ bslash ∧ c ≠ q then
        shlexRun rest (.quot q) (token ++ [bslash, c]) quoted acc
      else
        shlexRun rest (.quot q) (token ++ [c]) quoted acc

/-- `shlex.split(s)`: run the scanner from the initial state. -/
def shlexSplit (s : String) : Except String (List String) :=
  shlexRun s.data .ws [] false []

-- Sanity checks on concrete inputs, mirroring CPython behaviour.
example : shlexSplit "bandit -r x.py -q -f json" =
    .ok ["bandit", "-r", "x.py", "-q", "-f", "json"] := by decide
example : shlexSplit "pyre check" = .ok ["pyre", "check"] := by decide
example : shlexSplit "" = .ok [] := by decide
example : shlexSplit "a  b" = .ok ["a", "b"] := by decide
example : shlexSplit "a #b" = .ok ["a", "#b"] := by decide
example : shlexSplit "  a  " = .ok ["a"] := by decide
example : shlexSplit (String.mk [dquote, dquote]) = .ok [""] := by decide
example : shlexSplit (String.mk ([dquote] ++ "a b".data ++ [dquote])) =
    .ok ["a b"] := by decide
example : shlexSplit (String.mk ("a".data ++ [dquote] ++ "b".data)) =
    .error "No closing quotation" := by decide
example : shlexSplit (String.mk ("a".data ++ [bslash])) =
    .error "No escaped character" := by decide
example : shlexSplit (String.mk ("x".data ++ [dquote, bslash] ++ "y".data ++ [dquote] ++ "z".data)) =
    .ok [String.mk ("x".data ++ [bslash] ++ "yz".data)] := by decide

/-! ## Subprocess and exception model -/

/-- One external-process invocation as performed by `subprocess.run` in the
source: the argument vector (produced by `shlex.split`) and the working
directory (`cwd=` keyword; `none` when the keyword is not passed). -/
structure Invocation where
  argv : List String
  cwd : Option String
deriving DecidableEq, Repr

/-- What the operating system does with one invocation: either the process
runs to completion (with captured standard output, captured standard error
and an exit status), or the invocation itself fails before a process exists
(for example `FileNotFoundError` when the executable is not installed).
Exit statuses are modelled as naturals; `0` is success. -/
inductive RunResult where
  | completed (stdout : String) (stderr : String) (returncode : Nat)
  | spawnFailure (msg : String)
deriving DecidableEq, Repr

/-- The environment: how the operating system answers each invocation. -/
def ToolEnv := Invocation → RunResult

/-- The Python exceptions that can cross function boundaries in this
program: `subprocess.CalledProcessError` (non-zero exit with `check=True`),
`OSError`/`FileNotFoundError` (spawn failure) and `ValueError`
(raised by `shlex.split`). -/
inductive PyExn where
  | calledProcessError (cmd : List String) (returncode : Nat)
  | osError (msg : String)
  | valueError (msg : String)
deriving DecidableEq, Repr

/-- Python `repr` of a string, for strings free of quotes, backslashes and
control characters (the only shape appearing in this development): a pair
of single quotes around the text. -/
def pyStrRepr (s : String) : String := sqStr ++ s ++ sqStr

/-- Python `repr`/`str` of a list of strings, as produced by
`"%s" % cmd_list` inside `CalledProcessError.__str__`. -/
def pyListRepr (xs : List String) : String :=
  "[" ++ String.intercalate ", " (xs.map pyStrRepr) ++ "]"

/-- `str(e)` for `e = subprocess.CalledProcessError(returncode, cmd)` with a
positive exit status: `"Command '%s' returned non-zero exit status %d."`. -/
def cpeStr (cmd : List String) (returncode : Nat) : String :=
  "Command " ++ sqStr ++ pyListRepr cmd ++ sqStr ++
    " returned non-zero exit status " ++ toString returncode ++ "."

/-! ## `analyze_python` -/

/-- One `if use_<tool>:` block of `analyze_python`: build the command string,
split it with `shlex.split`, run `subprocess.run(..., check=True)`, store
`process.stdout` in the results mapping; `except CalledProcessError` stores
`f"Error: {e}"` instead.  A `ValueError` from `shlex.split` or an `OSError`
from the spawn is not caught by the source and propagates; once an
exception has propagated, later blocks do not run.  The second component
accumulates the invocations actually attempted as subprocesses. -/
def runToolStep (env : ToolEnv) (name : String) (cmdStr : String)
    (cwd : Option String) :
    Except PyExn (List (String × String)) × List Invocation →
    Except PyExn (List (String × String)) × List Invocation
  | (.error e, calls) => (.error e, calls)
  | (.ok results, calls) =>
    match shlexSplit cmdStr with
    | .error m => (.error (.valueError m), calls)
    | .ok argv =>
      let inv : Invocation := ⟨argv, cwd⟩
      match env inv with
      | .completed stdout _ 0 => (.ok (results ++ [(name, stdout)]), calls ++ [inv])
      | .completed _ _ rc =>
        (.ok (results ++ [(name, "Error: " ++ cpeStr argv rc)]), calls ++ [inv])
      | .spawnFailure m => (.error (.osError m), calls)

/-- `if use_<tool>:` guard around a tool block. -/
def condStep (enabled : Bool)
    (step : Except PyExn (List (String × String)) × List Invocation →
      Except PyExn (List (String × String)) × List Invocation)
    (st : Except PyExn (List (String × String)) × List Invocation) :
    Except PyExn (List (String × String)) × List Invocation :=
  if enabled then step st else st

/-- `os.path.dirname` (POSIX): take the prefix up to and including the last
slash, then strip trailing slashes unless the prefix is entirely slashes. -/
def dirname (p : String) : String :=
  let head := (p.data.reverse.dropWhile (fun c => !(c = '/'))).reverse
  if head ≠ [] ∧ head.any (fun c => !(c = '/')) then
    String.mk (head.reverse.dropWhile (fun c => c = '/')).reverse
  else
    String.mk head

example : dirname "dir/x.py" = "dir" := by decide
example : dirname "x.py" = "" := by decide
example : dirname "/x" = "/" := by decide
example : dirname "a//b" = "a" := by decide

/-- `analyze_python(filepath, report_file, use_bandit, use_flake8,
use_pylint, use_pyre)` from `src/main.py`: the four tool blocks in source
order.  The command strings are the source's f-strings; `pyre` alone runs
with `cwd=os.path.dirname(filepath)`.  Returns the results mapping (an
insertion-ordered association list, as a Python `dict` with distinct keys)
or the uncaught exception, together with the attempted invocations.
(`report_file` is accepted and unused, as in the source; the `logging.info`
and per-tool `logging.error` calls, which only write to the log stream, are
not modelled.) -/
def analyze_python (env : ToolEnv) (filepath : String)
    (_report_file : Option String)
    (use_bandit use_flake8 use_pylint use_pyre : Bool) :
    Except PyExn (List (String × String)) × List Invocation :=
  condStep use_pyre (runToolStep env "pyre" "pyre check" (some (dirname filepath)))
    (condStep use_pylint
      (runToolStep env "pylint" ("pylint " ++ filepath ++ " --output-format=json") none)
      (condStep use_flake8
        (runToolStep env "flake8" ("flake8 " ++ filepath) none)
        (condStep use_bandit
          (runToolStep env "bandit" ("bandit -r " ++ filepath ++ " -q -f json") none)
          (.ok [], []))))

/-- `analyze_javascript`: a fixed placeholder, no subprocess. -/
def analyze_javascript (_filepath : String) (_report_file : Option String) :
    List (String × String) :=
  [("javascript_analysis", "Not implemented")]

/-- `analyze_php`: a fixed placeholder, no subprocess. -/
def analyze_php (_filepath : String) (_report_file : Option String) :
    List (String × String) :=
  [("php_analysis", "Not implemented")]

/-! ## `save_report`, console printing and `main` -/

/-- Byte concatenation of a sequence of written chunks (the successive
`print` payloads on the console, or the successive `f.write` payloads in
the report file). -/
def joinChunks (chunks : List String) : String :=
  String.mk (chunks.flatMap String.data)

/-- The chunks `save_report` writes with `f.write`: the banner
`"Analysis Report:\n"`, then for each entry a `"\n--- TOOLNAME ---\n"`
header (tool name upper-cased) followed by the raw result text. -/
def reportChunks (results : List (String × String)) : List String :=
  "Analysis Report:\n" ::
    results.flatMap (fun pr => ["\n--- " ++ pr.1.toUpper ++ " ---\n", pr.2])

/-- The full byte content of the report file after a successful
`save_report`. -/
def reportContent (results : List (String × String)) : String :=
  joinChunks (reportChunks results)

/-- The chunks `main` prints for the results section; each `print(x)`
writes `x` followed by a newline.  The header line is printed as
`f"\n--- {tool.upper()} ---\n"` (so the console gains a blank line after
it), and each raw result is printed on its own (gaining a trailing
newline). -/
def consoleResultsChunks (results : List (String × String)) : List String :=
  "\nAnalysis Results:\n" ::
    results.flatMap (fun pr =>
      ["\n--- " ++ pr.1.toUpper ++ " ---\n\n", pr.2 ++ "\n"])

/-- The parsed command line (`argparse` guarantees `language` is one of
`javascript`, `php`, `python`, defaulting to `python`; the four tool flags
default to `false`). -/
structure Args where
  filepath : String
  language : String
  report_file : Option String
  use_bandit : Bool
  use_flake8 : Bool
  use_pylint : Bool
  use_pyre : Bool

/-- The parts of the operating system `main` interacts with besides the
tool subprocesses: `os.path.exists`, and whether opening/writing the report
file raises (`none` = success, `some msg` = the exception's text). -/
structure World where
  pathExists : String → Bool
  env : ToolEnv
  writeFailure : String → Option String

/-- Observable outcome of one run of `main`: the console chunks printed
(each `print` contributes its text plus a newline), the subprocess
invocations attempted, the value of the local `results` mapping (when the
run reaches it), the report file written (path and byte content), the
`logging.error` messages issued by `main`/`save_report`, and the uncaught
exception if the run crashed. -/
structure MainOutput where
  console : List String
  calls : List Invocation
  results : Option (List (String × String))
  reportWritten : Option (String × String)
  logErrors : List String
  crashed : Option PyExn

/-- `save_report(report_file, results)`: writes the report chunks; any
exception while opening or writing is caught and logged
(`logging.error(f"Failed to save report: {e}")`), leaving no (modelled)
file content.  Returns the file written (if any) and the log messages. -/
def save_report (w : World) (report_file : String)
    (results : List (String × String)) :
    Option (String × String) × List String :=
  match w.writeFailure report_file with
  | some msg => (none, ["Failed to save report: " ++ msg])
  | none => (some (report_file, reportContent results), [])

/-- The tail of `main` after `results` is bound: print the results section;
then, if `--report-file` was given, call `save_report` and unconditionally
print `f"\nReport saved to: {report_file}"`. -/
def finishRun (args : Args) (w : World) (results : List (String × String))
    (calls : List Invocation) : MainOutput :=
  match args.report_file with
  | none =>
    { console := consoleResultsChunks results, calls := calls,
      results := some results, reportWritten := none, logErrors := [],
      crashed := none }
  | some p =>
    let saved := save_report w p results
    { console := consoleResultsChunks results ++ ["\nReport saved to: " ++ p ++ "\n"],
      calls := calls, results := some results, reportWritten := saved.1,
      logErrors := saved.2, crashed := none }

/-- `main()` from `src/main.py` (after `argparse`): validate that the
target path exists (otherwise log, print the error and return), dispatch on
the language, print the results and optionally save the report.  An
exception escaping `analyze_python` propagates out of `main`: nothing
further is printed and the run crashes. -/
def main_run (args : Args) (w : World) : MainOutput :=
  if !(w.pathExists args.filepath) then
    { console := ["Error: File or directory not found: " ++ args.filepath ++ "\n"],
      calls := [], results := none, reportWritten := none,
      logErrors := ["File or directory not found: " ++ args.filepath],
      crashed := none }
  else if args.language = "python" then
    match analyze_python w.env args.filepath args.report_file
        args.use_bandit args.use_flake8 args.use_pylint args.use_pyre with
    | (.error e, calls) =>
      { console := [], calls := calls, results := none,
        reportWritten := none, logErrors := [], crashed := some e }
    | (.ok results, calls) => finishRun args w results calls
  else if args.language = "javascript" then
    finishRun args w (analyze_javascript args.filepath args.report_file) []
  else if args.language = "php" then
    finishRun args w (analyze_php args.filepath args.report_file) []
  else
    { console := ["Error: Unsupported language: " ++ args.language ++ "\n"],
      calls := [], results := none, reportWritten := none,
      logErrors := ["Unsupported language: " ++ args.language],
      crashed := none }

/-! ## Derived notions used by the verified properties -/

/-- The four Python-path tools, in the source's flag-check order. -/
inductive Tool where
  | bandit
  | flake8
  | pylint
  | pyre
deriving DecidableEq, Repr

/-- The results-mapping key of each tool. -/
def nameOf : Tool → String
  | .bandit => "bandit"
  | .flake8 => "flake8"
  | .pylint => "pylint"
  | .pyre => "pyre"

/-- The invocation each tool block performs for a plain target path
(one on which `shlex.split` passes the interpolated path through as a
single argument): argument vector and working directory, read off the
source's command strings. -/
def invOf (t : Tool) (filepath : String) : Invocation :=
  match t with
  | .bandit => ⟨["bandit", "-r", filepath, "-q", "-f", "json"], none⟩
  | .flake8 => ⟨["flake8", filepath], none⟩
  | .pylint => ⟨["pylint", filepath, "--output-format=json"], none⟩
  | .pyre => ⟨["pyre", "check"], some (dirname filepath)⟩

/-- Whether a tool's flag is set. -/
def enabledOf (t : Tool) (use_bandit use_flake8 use_pylint use_pyre : Bool) : Bool :=
  match t with
  | .bandit => use_bandit
  | .flake8 => use_flake8
  | .pylint => use_pylint
  | .pyre => use_pyre

/-- The results-mapping entry a tool block stores when its subprocess runs
to completion: the captured standard output on exit status `0`, otherwise
the `f"Error: {e}"` text.  (The spawn-failure case stores nothing — the
exception propagates — so its value here is irrelevant.) -/
def entryFor (env : ToolEnv) (inv : Invocation) : String :=
  match env inv with
  | .completed stdout _ 0 => stdout
  | .completed _ _ rc => "Error: " ++ cpeStr inv.argv rc
  | .spawnFailure _ => ""

/-- An environment in which every invocation runs to completion (possibly
with a non-zero exit status): no executable is missing. -/
def EnvCompletes (env : ToolEnv) : Prop :=
  ∀ inv, ∃ stdout stderr rc, env inv = .completed stdout stderr rc

/-- A target path made only of ordinary characters: no whitespace, no
quotes, no backslash, so `shlex.split` passes it through verbatim. -/
def PlainStr (s : String) : Prop := ∀ c ∈ s.data, plainChar c = true

instance (s : String) : Decidable (PlainStr s) := by
  unfold PlainStr; infer_instance

/-- Splitting a character list at `shlex` whitespace, accumulating the
current partial word: the words `shlex.split` produces from quote-free
escape-free input. -/
def wsWordsAux : List Char → List Char → List String
  | tok, [] => if tok = [] then [] else [String.mk tok]
  | tok, c :: cs =>
    if isShWs c then
      if tok = [] then wsWordsAux [] cs else String.mk tok :: wsWordsAux [] cs
    else
      wsWordsAux (tok ++ [c]) cs

/-- The maximal whitespace-free words of a character list. -/
def wsWords (cs : List Char) : List String := wsWordsAux [] cs

/-- `appearsInOrder s blocks` states that the character blocks occur inside
`s` in the given order, disjointly. -/
def appearsInOrder : List Char → List (List Char) → Prop
  | _, [] => True
  | s, x :: xs => ∃ pre suf, s = pre ++ x ++ suf ∧ appearsInOrder suf xs

/-! ## Scanner lemmas: `shlex.split` on the source's command strings -/

/-- Unpack `plainChar`. -/
theorem plainChar_spec {c : Char} (h : plainChar c = true) :
    isShWs c = false ∧ c ≠ bslash ∧ isShQuote c = false := by
  simp only [plainChar, Bool.and_eq_true, Bool.not_eq_true',
    decide_eq_false_iff_not] at h
  exact ⟨h.1.1, h.1.2, h.2⟩

/-- One scanner step on an ordinary character in the word state. -/
theorem shlexRun_word_plain_cons (c : Char) (rest token : List Char)
    (quoted : Bool) (acc : List String) (hc : plainChar c = true) :
    shlexRun (c :: rest) .word token quoted acc =
      shlexRun rest .word (token ++ [c]) quoted acc := by
  obtain ⟨hws, hbs, hq⟩ := plainChar_spec hc
  simp only [shlexRun]
  rw [if_neg (by simp [hws]), if_neg (by simp [hq]), if_neg hbs]

/-- One scanner step on an ordinary character in the whitespace state. -/
theorem shlexRun_ws_plain_cons (c : Char) (rest token : List Char)
    (quoted : Bool) (acc : List String) (hc : plainChar c = true) :
    shlexRun (c :: rest) .ws token quoted acc =
      shlexRun rest .word (token ++ [c]) quoted acc := by
  obtain ⟨hws, hbs, hq⟩ := plainChar_spec hc
  simp only [shlexRun]
  rw [if_neg (by simp [hws]), if_neg hbs, if_neg (by simp [hq])]

/-- In the initial/whitespace state with no pending token, the scanner
behaves exactly as in the word state with an empty token. -/
theorem shlexRun_ws_eq_word (cs : List Char) (acc : List String) :
    shlexRun cs .ws [] false acc = shlexRun cs .word [] false acc := by
  cases cs with
  | nil => rfl
  | cons c rest =>
    simp only [shlexRun]
    by_cases hws : isShWs c
    · simp [hws]
    · by_cases hbs : c = bslash
      · subst hbs
        have hws' : isShWs bslash = false := by decide
        have hq : isShQuote bslash = false := by decide
        simp [hws', hq]
      · by_cases hq : isShQuote c
        · simp [hws, hbs, hq]
        · simp [hws, hbs, hq]

/-- Scanning ordinary word characters in the word state appends them to the
pending token. -/
theorem shlexRun_word_absorb (w : List Char) (rest : List Char)
    (token : List Char) (quoted : Bool) (acc : List String)
    (h : ∀ c ∈ w, plainChar c = true) :
    shlexRun (w ++ rest) .word token quoted acc =
      shlexRun rest .word (token ++ w) quoted acc := by
  induction w generalizing token with
  | nil => simp
  | cons c w' ih =>
    have hc : plainChar c = true := h c (List.mem_cons_self c w')
    have hw' : ∀ d ∈ w', plainChar d = true :=
      fun d hd => h d (List.mem_cons_of_mem c hd)
    rw [List.cons_append, shlexRun_word_plain_cons c (w' ++ rest) token quoted acc hc,
      ih (token ++ [c]) hw']
    simp

/-- One scanner step on a whitespace character in the word state: emit. -/
theorem shlexRun_word_ws_cons (c : Char) (rest token : List Char)
    (quoted : Bool) (acc : List String) (hc : isShWs c = true) :
    shlexRun (c :: rest) .word token quoted acc =
      shlexRun rest .ws [] false (shEmit token quoted acc) := by
  simp only [shlexRun]
  rw [if_pos hc]

/-- Scanning a mixture of ordinary and whitespace characters in the word
state, followed by a space: the pending token plus the maximal words are
emitted in order. -/
theorem shlexRun_mixed_space_word (cs : List Char) (rest : List Char)
    (tok : List Char) (acc : List String)
    (h : ∀ c ∈ cs, plainChar c = true ∨ isShWs c = true) :
    shlexRun (cs ++ (' ' :: rest)) .word tok false acc =
      shlexRun rest .ws [] false (acc ++ wsWordsAux tok cs) := by
  induction cs generalizing tok acc with
  | nil =>
    rw [List.nil_append,
      shlexRun_word_ws_cons ' ' rest tok false acc (by decide)]
    by_cases htok : tok = []
    · subst htok; simp [shEmit, wsWordsAux]
    · simp [shEmit, wsWordsAux, htok]
  | cons c cs' ih =>
    rcases h c (List.mem_cons_self c cs') with hpl | hws
    · rw [List.cons_append, shlexRun_word_plain_cons c _ tok false acc hpl,
        ih (tok ++ [c]) acc (fun d hd => h d (List.mem_cons_of_mem c hd))]
      obtain ⟨hws', _, _⟩ := plainChar_spec hpl
      simp [wsWordsAux, hws']
    · rw [List.cons_append, shlexRun_word_ws_cons c _ tok false acc hws,
        shlexRun_ws_eq_word,
        ih [] (shEmit tok false acc) (fun d hd => h d (List.mem_cons_of_mem c hd))]
      by_cases htok : tok = []
      · subst htok; simp [shEmit, wsWordsAux, hws]
      · simp [shEmit, wsWordsAux, hws, htok]

/-- Scanning a mixture of ordinary and whitespace characters in the word
state at the end of the input. -/
theorem shlexRun_mixed_end_word (cs : List Char) (tok : List Char)
    (acc : List String)
    (h : ∀ c ∈ cs, plainChar c = true ∨ isShWs c = true) :
    shlexRun cs .word tok false acc = .ok (acc ++ wsWordsAux tok cs) := by
  induction cs generalizing tok acc with
  | nil =>
    by_cases htok : tok = []
    · subst htok; simp [shlexRun, shEmit, wsWordsAux]
    · simp [shlexRun, shEmit, wsWordsAux, htok]
  | cons c cs' ih =>
    rcases h c (List.mem_cons_self c cs') with hpl | hws
    · rw [shlexRun_word_plain_cons c cs' tok false acc hpl,
        ih (tok ++ [c]) acc (fun d hd => h d (List.mem_cons_of_mem c hd))]
      obtain ⟨hws', _, _⟩ := plainChar_spec hpl
      simp [wsWordsAux, hws']
    · rw [shlexRun_word_ws_cons c cs' tok false acc hws,
        shlexRun_ws_eq_word,
        ih [] (shEmit tok false acc) (fun d hd => h d (List.mem_cons_of_mem c hd))]
      by_cases htok : tok = []
      · subst htok; simp [shEmit, wsWordsAux, hws]
      · simp [shEmit, wsWordsAux, hws, htok]

/-- As `shlexRun_mixed_space_word`, from the initial state. -/
theorem shlexRun_mixed_space (cs : List Char) (rest : List Char)
    (acc : List String)
    (h : ∀ c ∈ cs, plainChar c = true ∨ isShWs c = true) :
    shlexRun (cs ++ (' ' :: rest)) .ws [] false acc =
      shlexRun rest .ws [] false (acc ++ wsWords cs) := by
  rw [shlexRun_ws_eq_word, shlexRun_mixed_space_word cs rest [] acc h]; rfl

/-- As `shlexRun_mixed_end_word`, from the initial state. -/
theorem shlexRun_mixed_end (cs : List Char) (acc : List String)
    (h : ∀ c ∈ cs, plainChar c = true ∨ isShWs c = true) :
    shlexRun cs .ws [] false acc = .ok (acc ++ wsWords cs) := by
  rw [shlexRun_ws_eq_word, shlexRun_mixed_end_word cs [] acc h]; rfl

/-- A quote-free whitespace-free nonempty string is one whole word. -/
theorem wsWordsAux_plain (cs : List Char) (tok : List Char)
    (h : ∀ c ∈ cs, plainChar c = true) :
    wsWordsAux tok cs =
      if tok ++ cs = [] then [] else [String.mk (tok ++ cs)] := by
  induction cs generalizing tok with
  | nil => simp [wsWordsAux]
  | cons c cs' ih =>
    have hc := plainChar_spec (h c (List.mem_cons_self c cs'))
    rw [wsWordsAux, if_neg (by simp [hc.1]),
      ih (tok ++ [c]) (fun d hd => h d (List.mem_cons_of_mem c hd))]
    simp

/-- `wsWords` of a plain nonempty string. -/
theorem wsWords_plain (cs : List Char) (h : ∀ c ∈ cs, plainChar c = true)
    (hne : cs ≠ []) : wsWords cs = [String.mk cs] := by
  rw [wsWords, wsWordsAux_plain cs [] h]
  simp [hne]

/-- `shlex.split` of the bandit command for a quote-free, escape-free
target path: the path contributes its whitespace-separated words. -/
theorem shlex_cmd_bandit (fp : String)
    (h : ∀ c ∈ fp.data, plainChar c = true ∨ isShWs c = true) :
    shlexSplit ("bandit -r " ++ fp ++ " -q -f json") =
      .ok (["bandit", "-r"] ++ wsWords fp.data ++ ["-q", "-f", "json"]) := by
  have hdata : ("bandit -r " ++ fp ++ " -q -f json").data =
      "bandit".data ++ (' ' ::
        ("-r".data ++ (' ' :: (fp.data ++ (' ' :: "-q -f json".data))))) := by
    have h1 : "bandit -r ".data = "bandit".data ++ (' ' :: ("-r".data ++ [' '])) := by
      decide
    have h2 : " -q -f json".data = ' ' :: "-q -f json".data := by decide
    rw [String.data_append, String.data_append, h1, h2]
    simp [List.append_assoc]
  rw [shlexSplit, hdata,
    shlexRun_mixed_space "bandit".data _ [] (by decide),
    shlexRun_mixed_space "-r".data _ _ (by decide),
    shlexRun_mixed_space fp.data _ _ h,
    shlexRun_mixed_end "-q -f json".data _ (by decide)]
  have w1 : wsWords "bandit".data = ["bandit"] := by decide
  have w2 : wsWords "-r".data = ["-r"] := by decide
  have w3 : wsWords "-q -f json".data = ["-q", "-f", "json"] := by decide
  rw [w1, w2, w3]
  simp [List.append_assoc]

/-- `shlex.split` of the flake8 command for a quote-free, escape-free
target path. -/
theorem shlex_cmd_flake8 (fp : String)
    (h : ∀ c ∈ fp.data, plainChar c = true ∨ isShWs c = true) :
    shlexSplit ("flake8 " ++ fp) = .ok ("flake8" :: wsWords fp.data) := by
  have hdata : ("flake8 " ++ fp).data = "flake8".data ++ (' ' :: fp.data) := by
    have h1 : "flake8 ".data = "flake8".data ++ [' '] := by decide
    rw [String.data_append, h1]
    simp [List.append_assoc]
  rw [shlexSplit, hdata,
    shlexRun_mixed_space "flake8".data _ [] (by decide),
    shlexRun_mixed_end fp.data _ h]
  have w1 : wsWords "flake8".data = ["flake8"] := by decide
  rw [w1]
  simp

/-- `shlex.split` of the pylint command for a quote-free, escape-free
target path. -/
theorem shlex_cmd_pylint (fp : String)
    (h : ∀ c ∈ fp.data, plainChar c = true ∨ isShWs c = true) :
    shlexSplit ("pylint " ++ fp ++ " --output-format=json") =
      .ok (["pylint"] ++ wsWords fp.data ++ ["--output-format=json"]) := by
  have hdata : ("pylint " ++ fp ++ " --output-format=json").data =
      "pylint".data ++ (' ' :: (fp.data ++ (' ' :: "--output-format=json".data))) := by
    have h1 : "pylint ".data = "pylint".data ++ [' '] := by decide
    have h2 : " --output-format=json".data = ' ' :: "--output-format=json".data := by
      decide
    rw [String.data_append, String.data_append, h1, h2]
    simp [List.append_assoc]
  rw [shlexSplit, hdata,
    shlexRun_mixed_space "pylint".data _ [] (by decide),
    shlexRun_mixed_space fp.data _ _ h,
    shlexRun_mixed_end "--output-format=json".data _ (by decide)]
  have w1 : wsWords "pylint".data = ["pylint"] := by decide
  have w2 : wsWords "--output-format=json".data = ["--output-format=json"] := by decide
  rw [w1, w2]
  simp [List.append_assoc]

/-- `shlex.split` of the fixed pyre command. -/
theorem shlex_cmd_pyre : shlexSplit "pyre check" = .ok ["pyre", "check"] := by
  decide

/-- A plain path is one whose characters `shlex` treats as word material. -/
theorem plainStr_mixed {fp : String} (h : PlainStr fp) :
    ∀ c ∈ fp.data, plainChar c = true ∨ isShWs c = true :=
  fun c hc => Or.inl (h c hc)

/-- `String.mk` and `String.data` are inverse. -/
theorem string_mk_data (s : String) : String.mk s.data = s := rfl

/-- `wsWords` of a plain nonempty path is the path itself. -/
theorem wsWords_plain_str {fp : String} (h : PlainStr fp)
    (hne : fp.data ≠ []) : wsWords fp.data = [fp] := by
  rw [wsWords_plain fp.data h hne, string_mk_data]

/-- The bandit command for a plain path splits with the path verbatim. -/
theorem shlex_cmd_bandit_plain (fp : String) (h : PlainStr fp)
    (hne : fp.data ≠ []) :
    shlexSplit ("bandit -r " ++ fp ++ " -q -f json") =
      .ok ["bandit", "-r", fp, "-q", "-f", "json"] := by
  rw [shlex_cmd_bandit fp (plainStr_mixed h), wsWords_plain_str h hne]
  rfl

/-- The flake8 command for a plain path splits with the path verbatim. -/
theorem shlex_cmd_flake8_plain (fp : String) (h : PlainStr fp)
    (hne : fp.data ≠ []) :
    shlexSplit ("flake8 " ++ fp) = .ok ["flake8", fp] := by
  rw [shlex_cmd_flake8 fp (plainStr_mixed h), wsWords_plain_str h hne]

/-- The pylint command for a plain path splits with the path verbatim. -/
theorem shlex_cmd_pylint_plain (fp : String) (h : PlainStr fp)
    (hne : fp.data ≠ []) :
    shlexSplit ("pylint " ++ fp ++ " --output-format=json") =
      .ok ["pylint", fp, "--output-format=json"] := by
  rw [shlex_cmd_pylint fp (plainStr_mixed h), wsWords_plain_str h hne]
  rfl

/-! ## Normal form of `analyze_python` when every subprocess completes -/

/-- A tool block whose subprocess runs to completion appends exactly one
entry (stdout on success, the error text otherwise) and one invocation. -/
theorem runToolStep_completes (env : ToolEnv) (name cmdStr : String)
    (cwd : Option String) (argv : List String)
    (results : List (String × String)) (calls : List Invocation)
    (hs : shlexSplit cmdStr = .ok argv)
    (hc : ∃ stdout stderr rc, env ⟨argv, cwd⟩ = .completed stdout stderr rc) :
    runToolStep env name cmdStr cwd (.ok results, calls) =
      (.ok (results ++ [(name, entryFor env ⟨argv, cwd⟩)]),
        calls ++ [⟨argv, cwd⟩]) := by
  obtain ⟨o, e, rc, hc⟩ := hc
  simp only [runToolStep, hs, entryFor, hc]
  cases rc with
  | zero => simp
  | succ n => simp

/-- Normal form of `analyze_python` for a plain target path in an
environment where every invocation completes: one entry and one invocation
per enabled tool, in the flag-check order bandit, flake8, pylint, pyre. -/
theorem analyze_python_normal (env : ToolEnv) (fp : String)
    (rf : Option String) (b f p y : Bool) (hp : PlainStr fp)
    (hne : fp.data ≠ []) (henv : EnvCompletes env) :
    analyze_python env fp rf b f p y =
      (.ok ((if b then [("bandit", entryFor env (invOf .bandit fp))] else []) ++
            (if f then [("flake8", entryFor env (invOf .flake8 fp))] else []) ++
            (if p then [("pylint", entryFor env (invOf .pylint fp))] else []) ++
            (if y then [("pyre", entryFor env (invOf .pyre fp))] else [])),
       (if b then [invOf .bandit fp] else []) ++
       (if f then [invOf .flake8 fp] else []) ++
       (if p then [invOf .pylint fp] else []) ++
       (if y then [invOf .pyre fp] else [])) := by
  have hB : ∀ res calls,
      runToolStep env "bandit" ("bandit -r " ++ fp ++ " -q -f json") none
        (.ok res, calls) =
      (.ok (res ++ [("bandit", entryFor env (invOf .bandit fp))]),
        calls ++ [invOf .bandit fp]) :=
    fun res calls => runToolStep_completes env "bandit" _ none _ res calls
      (shlex_cmd_bandit_plain fp hp hne) (henv _)
  have hF : ∀ res calls,
      runToolStep env "flake8" ("flake8 " ++ fp) none (.ok res, calls) =
      (.ok (res ++ [("flake8", entryFor env (invOf .flake8 fp))]),
        calls ++ [invOf .flake8 fp]) :=
    fun res calls => runToolStep_completes env "flake8" _ none _ res calls
      (shlex_cmd_flake8_plain fp hp hne) (henv _)
  have hP : ∀ res calls,
      runToolStep env "pylint" ("pylint " ++ fp ++ " --output-format=json") none
        (.ok res, calls) =
      (.ok (res ++ [("pylint", entryFor env (invOf .pylint fp))]),
        calls ++ [invOf .pylint fp]) :=
    fun res calls => runToolStep_completes env "pylint" _ none _ res calls
      (shlex_cmd_pylint_plain fp hp hne) (henv _)
  have hY : ∀ res calls,
      runToolStep env "pyre" "pyre check" (some (dirname fp)) (.ok res, calls) =
      (.ok (res ++ [("pyre", entryFor env (invOf .pyre fp))]),
        calls ++ [invOf .pyre fp]) :=
    fun res calls => runToolStep_completes env "pyre" _ (some (dirname fp)) _
      res calls shlex_cmd_pyre (henv _)
  unfold analyze_python
  cases b <;> cases f <;> cases p <;> cases y <;>
    simp [condStep, hB, hF, hP, hY]

/-! ## Concrete instances used by witnesses -/

/-- A test environment where every invocation completes successfully with
a fixed output. -/
def envAll0 : ToolEnv := fun _ => .completed "out" "" 0

/-- `envAll0` completes every invocation. -/
theorem envAll0_completes : EnvCompletes envAll0 :=
  fun _ => ⟨"out", "", 0, rfl⟩

/-- A world where every path exists and the report file is writable. -/
def worldYes : World := ⟨fun _ => true, envAll0, fun _ => none⟩

/-! ## Claims -/

/-- Claim C1: for every subset of the four Python tools enabled via flags,
run on a plain existing target path in an environment where every enabled
tool's subprocess completes, the result mapping returned by
`analyze_python` contains exactly one entry per enabled tool and none for a
disabled tool, with keys in the fixed flag-check order bandit, flake8,
pylint, pyre. -/
theorem c1_result_keys_in_flag_order (env : ToolEnv) (fp : String)
    (rf : Option String) (b f p y : Bool) (hp : PlainStr fp)
    (hne : fp.data ≠ []) (henv : EnvCompletes env) :
    ∃ res calls, analyze_python env fp rf b f p y = (.ok res, calls) ∧
      res.map Prod.fst =
        (if b then ["bandit"] else []) ++ (if f then ["flake8"] else []) ++
        (if p then ["pylint"] else []) ++ (if y then ["pyre"] else []) := by
  refine ⟨_, _, analyze_python_normal env fp rf b f p y hp hne henv, ?_⟩
  cases b <;> cases f <;> cases p <;> cases y <;> simp

/-- Witness for C1 at a concrete input: flags bandit and pylint. -/
theorem c1_result_keys_in_flag_order_witness :
    ∃ res calls,
      analyze_python envAll0 "x.py" none true false true false = (.ok res, calls) ∧
      res.map Prod.fst =
        (if true then ["bandit"] else []) ++ (if false then ["flake8"] else []) ++
        (if true then ["pylint"] else []) ++ (if false then ["pyre"] else []) :=
  c1_result_keys_in_flag_order envAll0 "x.py" none true false true false
    (by decide) (by decide) envAll0_completes

/-- Claim C4: for every target path that does not exist, the run stops
after reporting the validation error to the console and the log: no tool
subprocess is invoked, no results are produced, no report is written and
the run does not crash. -/
theorem c4_missing_path_stops_run (args : Args) (w : World)
    (h : w.pathExists args.filepath = false) :
    main_run args w =
      { console := ["Error: File or directory not found: " ++ args.filepath ++ "\n"],
        calls := [], results := none, reportWritten := none,
        logErrors := ["File or directory not found: " ++ args.filepath],
        crashed := none } := by
  rw [main_run, h]
  simp

/-- Witness for C4 at a concrete input. -/
theorem c4_missing_path_stops_run_witness :
    main_run ⟨"gone.py", "python", none, true, false, false, false⟩
        ⟨fun _ => false, envAll0, fun _ => none⟩ =
      { console := ["Error: File or directory not found: " ++ "gone.py" ++ "\n"],
        calls := [], results := none, reportWritten := none,
        logErrors := ["File or directory not found: " ++ "gone.py"],
        crashed := none } :=
  c4_missing_path_stops_run ⟨"gone.py", "python", none, true, false, false, false⟩
    ⟨fun _ => false, envAll0, fun _ => none⟩ rfl

/-- Claim C6: for every run with language `javascript` or `php` on an
existing target path, no subprocess is invoked and the results mapping is
the single fixed placeholder entry for that language, regardless of the
four tool flags. -/
theorem c6_placeholder_languages (args : Args) (w : World)
    (hex : w.pathExists args.filepath = true)
    (hl : args.language = "javascript" ∨ args.language = "php") :
    (main_run args w).calls = [] ∧
    (main_run args w).results = some
      [((if args.language = "javascript" then "javascript_analysis"
          else "php_analysis"), "Not implemented")] := by
  rcases hl with hl | hl <;>
    rw [main_run, hex] <;>
    rw [hl] <;>
    cases hrf : args.report_file <;>
      simp [finishRun, analyze_javascript, analyze_php, hrf]

/-- Witness for C6 at a concrete input: language javascript with two tool
flags set. -/
theorem c6_placeholder_languages_witness :
    (main_run ⟨"x.js", "javascript", none, true, true, false, false⟩ worldYes).calls = [] ∧
    (main_run ⟨"x.js", "javascript", none, true, true, false, false⟩ worldYes).results =
      some [((if ("javascript" : String) = "javascript" then "javascript_analysis"
          else "php_analysis"), "Not implemented")] :=
  c6_placeholder_languages ⟨"x.js", "javascript", none, true, true, false, false⟩
    worldYes rfl (Or.inl rfl)

/-- Is an `analyze_python` outcome a normally returned mapping? -/
def exceptIsOk : Except PyExn (List (String × String)) → Bool
  | .ok _ => true
  | .error _ => false

/-- `str(FileNotFoundError(...))` for a missing `flake8` executable. -/
def fnfMsg : String := "[Errno 2] No such file or directory: " ++ pyStrRepr "flake8"

/-- An environment where the `flake8` executable is not installed (spawning
it raises `FileNotFoundError`) and every other invocation succeeds with a
fixed bandit-style output. -/
def envMissingFlake8 : ToolEnv := fun inv =>
  if inv.argv.head? = some "flake8" then .spawnFailure fnfMsg
  else .completed "bandit-output" "" 0

/-- Counterexample to claim C3: running with `--use-bandit --use-flake8` on
a valid path when `flake8` is not installed does not return a mapping at
all — `analyze_python` only catches `CalledProcessError`, so the spawn
failure's `OSError` escapes and the run crashes. -/
theorem c3_counterexample :
    exceptIsOk
      (analyze_python envMissingFlake8 "x.py" none true true false false).1 = false ∧
    (analyze_python envMissingFlake8 "x.py" none true true false false).1 =
      .error (.osError fnfMsg) := by
  decide

/-- Claim C3 amended: a tool subprocess that exits non-zero is recovered
locally, but when an enabled tool's invocation itself fails to start (for
example the executable is not installed), the `OSError` is not caught by
`analyze_python`: it propagates, the run produces no result mapping (the
bandit output already captured is lost) and the program crashes. -/
theorem c3_spawn_failure_propagates (env : ToolEnv) (fp : String)
    (rf : Option String) (out err msg : String)
    (hp : PlainStr fp) (hne : fp.data ≠ [])
    (hb : env ⟨["bandit", "-r", fp, "-q", "-f", "json"], none⟩ =
      .completed out err 0)
    (hf : env ⟨["flake8", fp], none⟩ = .spawnFailure msg) :
    (analyze_python env fp rf true true false false).1 =
      .error (.osError msg) := by
  have hbstep := runToolStep_completes env "bandit"
    ("bandit -r " ++ fp ++ " -q -f json") none _ [] []
    (shlex_cmd_bandit_plain fp hp hne) ⟨out, err, 0, hb⟩
  unfold analyze_python
  simp only [condStep, if_true, if_false, Bool.false_eq_true, if_neg]
  rw [hbstep]
  simp only [runToolStep, shlex_cmd_flake8_plain fp hp hne, hf]

/-- Witness for the amended C3 at a concrete input. -/
theorem c3_spawn_failure_propagates_witness :
    (analyze_python envMissingFlake8 "x.py" none true true false false).1 =
      .error (.osError fnfMsg) :=
  c3_spawn_failure_propagates envMissingFlake8 "x.py" none
    "bandit-output" "" fnfMsg (by decide) (by decide) rfl rfl

/-! ## Report file versus console -/

theorem appearsInOrder_prefix (p s : List Char) (xs : List (List Char))
    (h : appearsInOrder s xs) : appearsInOrder (p ++ s) xs := by
  cases xs with
  | nil => trivial
  | cons x xs' =>
    obtain ⟨pre, suf, heq, h'⟩ := h
    exact ⟨p ++ pre, suf, by rw [heq]; simp [List.append_assoc], h'⟩

theorem appearsInOrder_here (x suf : List Char) (xs : List (List Char))
    (h : appearsInOrder suf xs) : appearsInOrder (x ++ suf) (x :: xs) :=
  ⟨[], suf, by simp, h⟩

/-- The shared content of the console section and the report file: for each
entry, the upper-cased `--- TOOLNAME ---` header line and the raw output. -/
def resultBlocks (results : List (String × String)) : List (List Char) :=
  results.flatMap fun pr => [("\n--- " ++ pr.1.toUpper ++ " ---\n").data, pr.2.data]

/-- The console's per-entry chunks contain the blocks in order. -/
theorem console_chunks_blocks (results : List (String × String)) :
    appearsInOrder
      ((results.flatMap fun pr =>
        ["\n--- " ++ pr.1.toUpper ++ " ---\n\n", pr.2 ++ "\n"]).flatMap String.data)
      (resultBlocks results) := by
  induction results with
  | nil => trivial
  | cons pr rs ih =>
    have hhdr : ("\n--- " ++ pr.1.toUpper ++ " ---\n\n").data =
        ("\n--- " ++ pr.1.toUpper ++ " ---\n").data ++ [Char.ofNat 10] := by
      simp only [String.data_append, List.append_assoc]
      congr 1
    have hbody : (pr.2 ++ "\n").data = pr.2.data ++ [Char.ofNat 10] := by
      have h3 : "\n".data = [Char.ofNat 10] := by decide
      simp only [String.data_append, h3]
    simp only [List.flatMap_cons, List.flatMap_nil, resultBlocks,
      List.append_nil, List.flatMap_append, hhdr, hbody, List.append_assoc]
    refine appearsInOrder_here _ _ _ ?_
    refine appearsInOrder_prefix [Char.ofNat 10] _ _ ?_
    refine appearsInOrder_here _ _ _ ?_
    refine appearsInOrder_prefix [Char.ofNat 10] _ _ ?_
    simpa [resultBlocks] using ih

/-- The report file's per-entry chunks contain the blocks in order. -/
theorem report_chunks_blocks (results : List (String × String)) :
    appearsInOrder
      ((results.flatMap fun pr =>
        ["\n--- " ++ pr.1.toUpper ++ " ---\n", pr.2]).flatMap String.data)
      (resultBlocks results) := by
  induction results with
  | nil => trivial
  | cons pr rs ih =>
    simp only [List.flatMap_cons, List.flatMap_nil, resultBlocks,
      List.append_nil, List.flatMap_append, List.append_assoc]
    refine appearsInOrder_here _ _ _ ?_
    refine appearsInOrder_here _ _ _ ?_
    simpa [resultBlocks] using ih

/-- Counterexample to claim C5: a run with `--report-file` whose file
content does not byte-match the console-printed aggregate (the file banner
is `Analysis Report:` with no blank lines, the console banner is
`Analysis Results:` with extra newlines from `print`). -/
theorem c5_counterexample :
    (main_run ⟨"x.js", "javascript", some "out.txt", false, false, false, false⟩
        worldYes).reportWritten =
      some ("out.txt", reportContent [("javascript_analysis", "Not implemented")]) ∧
    (main_run ⟨"x.js", "javascript", some "out.txt", false, false, false, false⟩
        worldYes).console =
      consoleResultsChunks [("javascript_analysis", "Not implemented")] ++
        ["\nReport saved to: out.txt\n"] ∧
    reportContent [("javascript_analysis", "Not implemented")] ≠
      joinChunks (consoleResultsChunks [("javascript_analysis", "Not implemented")]) := by
  refine ⟨rfl, rfl, ?_⟩
  decide

/-- Claim C5 amended: for every results mapping, the report file and the
console results section contain the same upper-cased `--- TOOLNAME ---`
header lines and the same raw outputs, in the same order; but the
surrounding bytes differ (banners `Analysis Report:` versus
`Analysis Results:`, and the console gains a blank line after each header
and a newline after each output), so the two are not byte-identical. -/
theorem c5_same_blocks_in_file_and_console (results : List (String × String)) :
    appearsInOrder (reportContent results).data (resultBlocks results) ∧
    appearsInOrder (joinChunks (consoleResultsChunks results)).data
      (resultBlocks results) := by
  constructor
  · show appearsInOrder ((reportChunks results).flatMap String.data) _
    rw [reportChunks, List.flatMap_cons]
    exact appearsInOrder_prefix _ _ _ (report_chunks_blocks results)
  · show appearsInOrder ((consoleResultsChunks results).flatMap String.data) _
    rw [consoleResultsChunks, List.flatMap_cons]
    exact appearsInOrder_prefix _ _ _ (console_chunks_blocks results)

/-! ## Report-saving message and whitespace in paths -/

/-- The invariant `argparse` guarantees about `--language`
(`choices=['javascript', 'php', 'python']`, default `'python'`). -/
def ValidLanguage (args : Args) : Prop :=
  args.language = "python" ∨ args.language = "javascript" ∨
    args.language = "php"

/-- Claim C8: whenever `--report-file` is given and the run reaches the
report-saving step (the path exists, the language is one argparse accepts
and the analysis did not crash), the console ends with the success message
`Report saved to: <path>` even when the report write failed — the failure
is only logged, and no file content is produced. -/
theorem c8_saved_message_despite_write_failure (args : Args) (w : World)
    (p msg : String) (hrf : args.report_file = some p)
    (hex : w.pathExists args.filepath = true)
    (hl : ValidLanguage args)
    (hwf : w.writeFailure p = some msg)
    (hnc : (main_run args w).crashed = none) :
    (main_run args w).reportWritten = none ∧
    (main_run args w).logErrors = ["Failed to save report: " ++ msg] ∧
    (main_run args w).console.getLast? =
      some ("\nReport saved to: " ++ p ++ "\n") := by
  rcases hl with hl | hl | hl
  · rcases han : analyze_python w.env args.filepath args.report_file
        args.use_bandit args.use_flake8 args.use_pylint args.use_pyre
      with ⟨r, calls⟩
    cases r with
    | error e =>
      exfalso
      rw [main_run, hex] at hnc
      simp only [hl, han] at hnc
      simp at hnc
    | ok results =>
      rw [main_run, hex]
      simp only [hl, han]
      simp [finishRun, hrf, save_report, hwf]
  · rw [main_run, hex]
    simp only [hl]
    simp [finishRun, hrf, save_report, hwf]
  · rw [main_run, hex]
    simp only [hl]
    simp [finishRun, hrf, save_report, hwf]

/-- Witness for C8 at a concrete input: a javascript run whose report
write fails. -/
theorem c8_saved_message_despite_write_failure_witness :
    (main_run ⟨"x.js", "javascript", some "out.txt", false, false, false, false⟩
        ⟨fun _ => true, envAll0, fun _ => some "Permission denied"⟩).reportWritten = none ∧
    (main_run ⟨"x.js", "javascript", some "out.txt", false, false, false, false⟩
        ⟨fun _ => true, envAll0, fun _ => some "Permission denied"⟩).logErrors =
      ["Failed to save report: " ++ "Permission denied"] ∧
    (main_run ⟨"x.js", "javascript", some "out.txt", false, false, false, false⟩
        ⟨fun _ => true, envAll0, fun _ => some "Permission denied"⟩).console.getLast? =
      some ("\nReport saved to: " ++ "out.txt" ++ "\n") :=
  c8_saved_message_despite_write_failure
    ⟨"x.js", "javascript", some "out.txt", false, false, false, false⟩
    ⟨fun _ => true, envAll0, fun _ => some "Permission denied"⟩
    "out.txt" "Permission denied" rfl rfl (Or.inr (Or.inl rfl)) rfl (by decide)

/-- The words produced by whitespace splitting contain no whitespace. -/
theorem wsWordsAux_no_ws (cs : List Char) (tok : List Char)
    (htok : ∀ c ∈ tok, isShWs c = false) :
    ∀ s ∈ wsWordsAux tok cs, ∀ c ∈ s.data, isShWs c = false := by
  induction cs generalizing tok with
  | nil =>
    intro s hs
    rw [wsWordsAux] at hs
    by_cases h : tok = []
    · simp [h] at hs
    · simp [h] at hs
      subst hs
      exact htok
  | cons c cs' ih =>
    intro s hs
    rw [wsWordsAux] at hs
    by_cases hws : isShWs c
    · rw [if_pos hws] at hs
      by_cases h : tok = []
      · rw [if_pos h] at hs
        exact ih [] (by simp) s hs
      · rw [if_neg h] at hs
        rcases List.mem_cons.mp hs with hs | hs
        · subst hs; exact htok
        · exact ih [] (by simp) s hs
    · rw [if_neg hws] at hs
      refine ih (tok ++ [c]) ?_ s hs
      intro d hd
      rcases List.mem_append.mp hd with hd | hd
      · exact htok d hd
      · simp at hd
        subst hd
        simpa using hws

/-- Counterexample to claim C10: the target path `" a"` contains
whitespace, yet `shlex.split` of the interpolated bandit command passes it
as the single argument `"a"` (six arguments in all), not as multiple
arguments. -/
theorem c10_counterexample :
    (" a").data.any isShWs = true ∧
    shlexSplit ("bandit -r " ++ " a" ++ " -q -f json") =
      .ok ["bandit", "-r", "a", "-q", "-f", "json"] := by
  decide

/-- Claim C10 amended: the bandit command line interpolates the raw path
and splits with `shlex.split`, so for every quote-free escape-free target
path the path's maximal whitespace-free words become separate arguments —
multiple arguments when the path has interior whitespace, but possibly one
or zero when the whitespace is only leading or trailing; in every case a
path containing whitespace is never passed through as a single argument
equal to the path. -/
theorem c10_whitespace_path_is_split (fp : String)
    (h : ∀ c ∈ fp.data, plainChar c = true ∨ isShWs c = true) :
    shlexSplit ("bandit -r " ++ fp ++ " -q -f json") =
      .ok (["bandit", "-r"] ++ wsWords fp.data ++ ["-q", "-f", "json"]) ∧
    (fp.data.any isShWs = true → fp ∉ wsWords fp.data) := by
  refine ⟨shlex_cmd_bandit fp h, ?_⟩
  intro hws hmem
  have hno := wsWordsAux_no_ws fp.data [] (by simp) fp hmem
  obtain ⟨c, hc, hcw⟩ := List.any_eq_true.mp hws
  rw [hno c hc] at hcw
  exact Bool.false_ne_true hcw

/-- Witness for the amended C10 at the concrete path `"a b"`. -/
theorem c10_whitespace_path_is_split_witness :
    shlexSplit ("bandit -r " ++ "a b" ++ " -q -f json") =
      .ok (["bandit", "-r"] ++ wsWords "a b".data ++ ["-q", "-f", "json"]) ∧
    ("a b".data.any isShWs = true → "a b" ∉ wsWords "a b".data) :=
  c10_whitespace_path_is_split "a b" (by decide)

/-- Claim C7: for every plain target path, in a completing environment,
the invocation trace of `analyze_python` shows that pyre runs as
`pyre check` with its working directory set to `os.path.dirname` of the
target, while bandit, flake8 and pylint run with no working-directory
change and receive the target path as one of their command arguments. -/
theorem c7_pyre_cwd_is_parent (env : ToolEnv) (fp : String)
    (rf : Option String) (b f p y : Bool) (hp : PlainStr fp)
    (hne : fp.data ≠ []) (henv : EnvCompletes env) :
    (analyze_python env fp rf b f p y).2 =
      (if b then [invOf .bandit fp] else []) ++
      (if f then [invOf .flake8 fp] else []) ++
      (if p then [invOf .pylint fp] else []) ++
      (if y then [invOf .pyre fp] else []) ∧
    (invOf .pyre fp).argv = ["pyre", "check"] ∧
    (invOf .pyre fp).cwd = some (dirname fp) ∧
    ((invOf .bandit fp).cwd = none ∧ fp ∈ (invOf .bandit fp).argv) ∧
    ((invOf .flake8 fp).cwd = none ∧ fp ∈ (invOf .flake8 fp).argv) ∧
    ((invOf .pylint fp).cwd = none ∧ fp ∈ (invOf .pylint fp).argv) := by
  refine ⟨?_, rfl, rfl, ⟨rfl, ?_⟩, ⟨rfl, ?_⟩, ⟨rfl, ?_⟩⟩
  · rw [analyze_python_normal env fp rf b f p y hp hne henv]
  · simp [invOf]
  · simp [invOf]
  · simp [invOf]

/-- Witness for C7 at a concrete input with all four tools enabled. -/
theorem c7_pyre_cwd_is_parent_witness :
    (analyze_python envAll0 "dir/x.py" none true true true true).2 =
      (if true then [invOf .bandit "dir/x.py"] else []) ++
      (if true then [invOf .flake8 "dir/x.py"] else []) ++
      (if true then [invOf .pylint "dir/x.py"] else []) ++
      (if true then [invOf .pyre "dir/x.py"] else []) ∧
    (invOf .pyre "dir/x.py").argv = ["pyre", "check"] ∧
    (invOf .pyre "dir/x.py").cwd = some (dirname "dir/x.py") ∧
    ((invOf .bandit "dir/x.py").cwd = none ∧
      "dir/x.py" ∈ (invOf .bandit "dir/x.py").argv) ∧
    ((invOf .flake8 "dir/x.py").cwd = none ∧
      "dir/x.py" ∈ (invOf .flake8 "dir/x.py").argv) ∧
    ((invOf .pylint "dir/x.py").cwd = none ∧
      "dir/x.py" ∈ (invOf .pylint "dir/x.py").argv) :=
  c7_pyre_cwd_is_parent envAll0 "dir/x.py" none true true true true
    (by decide) (by decide) envAll0_completes

/-! ## Per-tool entries: success, failure, independence -/

/-- On exit status `0`, the stored entry is the captured stdout. -/
theorem entryFor_success {env : ToolEnv} {inv : Invocation} {out err : String}
    (h : env inv = .completed out err 0) : entryFor env inv = out := by
  unfold entryFor
  rw [h]

/-- On a non-zero exit status, the stored entry is the error text. -/
theorem entryFor_failed {env : ToolEnv} {inv : Invocation}
    {out err : String} {rc : Nat} (h : env inv = .completed out err rc)
    (hrc : rc ≠ 0) : entryFor env inv = "Error: " ++ cpeStr inv.argv rc := by
  unfold entryFor
  rw [h]
  cases rc with
  | zero => exact absurd rfl hrc
  | succ n => rfl

/-- `entryFor` only looks at the environment's answer for its invocation. -/
theorem entryFor_congr {env envS : ToolEnv} {inv : Invocation}
    (h : envS inv = env inv) : entryFor envS inv = entryFor env inv := by
  unfold entryFor
  rw [h]

/-- Distinct tools perform distinct invocations (their argv heads differ). -/
theorem invOf_ne (t tS : Tool) (fp : String) (h : t ≠ tS) :
    invOf t fp ≠ invOf tS fp := by
  cases t <;> cases tS <;> simp_all [invOf]

/-- Looking a key up past a segment with a different key. -/
theorem lookup_if_seg_ne (k k1 v : String) (c : Bool)
    (rest : List (String × String)) (h : (k == k1) = false) :
    List.lookup k ((if c then [(k1, v)] else []) ++ rest) =
      List.lookup k rest := by
  cases c
  · simp
  · simp [List.lookup_cons, h]

/-- Looking a key up at its own segment. -/
theorem lookup_seg_eq (k v : String) (rest : List (String × String)) :
    List.lookup k ((k, v) :: rest) = some v := by
  simp [List.lookup_cons]

/-- Claim C2: if an enabled tool's subprocess exits non-zero while every
invocation still completes, the run still invokes every enabled tool (same
trace as a fully successful run), the failing tool's entry is the
`Error: ...` text, and every other entry is exactly what it would have been
had that tool succeeded (`envS` is the same environment except that tool
`t` exits `0`). -/
theorem c2_nonzero_exit_is_local_failure (env envS : ToolEnv) (fp : String)
    (rf : Option String) (b f p y : Bool) (t : Tool) (rc : Nat)
    (out err outS errS : String) (hp : PlainStr fp) (hne : fp.data ≠ [])
    (henv : EnvCompletes env) (henvS : EnvCompletes envS)
    (ht : enabledOf t b f p y = true)
    (hfail : env (invOf t fp) = .completed out err rc) (hrc : rc ≠ 0)
    (hok : envS (invOf t fp) = .completed outS errS 0)
    (hagree : ∀ inv, inv ≠ invOf t fp → envS inv = env inv) :
    ∃ res calls resS callsS,
      analyze_python env fp rf b f p y = (.ok res, calls) ∧
      analyze_python envS fp rf b f p y = (.ok resS, callsS) ∧
      callsS = calls ∧
      calls = (if b then [invOf .bandit fp] else []) ++
        (if f then [invOf .flake8 fp] else []) ++
        (if p then [invOf .pylint fp] else []) ++
        (if y then [invOf .pyre fp] else []) ∧
      res.lookup (nameOf t) =
        some ("Error: " ++ cpeStr (invOf t fp).argv rc) ∧
      res = resS.map (fun pr =>
        if pr.1 = nameOf t then
          (pr.1, "Error: " ++ cpeStr (invOf t fp).argv rc)
        else pr) := by
  have hNF := analyze_python_normal env fp rf b f p y hp hne henv
  have hNFS := analyze_python_normal envS fp rf b f p y hp hne henvS
  have hERR : entryFor env (invOf t fp) =
      "Error: " ++ cpeStr (invOf t fp).argv rc := entryFor_failed hfail hrc
  refine ⟨_, _, _, _, hNF, hNFS, rfl, rfl, ?_, ?_⟩
  · cases t with
    | bandit =>
      simp only [enabledOf] at ht
      subst ht
      simp only [if_true, nameOf, List.cons_append]
      rw [lookup_seg_eq, hERR]
    | flake8 =>
      simp only [enabledOf] at ht
      subst ht
      simp only [nameOf, List.append_assoc]
      rw [lookup_if_seg_ne _ _ _ _ _ (by decide)]
      simp only [if_true, List.cons_append]
      rw [lookup_seg_eq, hERR]
    | pylint =>
      simp only [enabledOf] at ht
      subst ht
      simp only [nameOf, List.append_assoc]
      rw [lookup_if_seg_ne _ _ _ _ _ (by decide),
        lookup_if_seg_ne _ _ _ _ _ (by decide)]
      simp only [if_true, List.cons_append]
      rw [lookup_seg_eq, hERR]
    | pyre =>
      simp only [enabledOf] at ht
      subst ht
      simp only [nameOf, List.append_assoc]
      rw [lookup_if_seg_ne _ _ _ _ _ (by decide),
        lookup_if_seg_ne _ _ _ _ _ (by decide),
        lookup_if_seg_ne _ _ _ _ _ (by decide)]
      simp only [if_true, List.cons_append]
      rw [lookup_seg_eq, hERR]
  · cases t with
    | bandit =>
      have h2 := entryFor_congr (hagree _ (invOf_ne .flake8 .bandit fp (by decide)))
      have h3 := entryFor_congr (hagree _ (invOf_ne .pylint .bandit fp (by decide)))
      have h4 := entryFor_congr (hagree _ (invOf_ne .pyre .bandit fp (by decide)))
      rw [h2, h3, h4, hERR]
      cases b <;> cases f <;> cases p <;> cases y <;> simp [nameOf]
    | flake8 =>
      have h1 := entryFor_congr (hagree _ (invOf_ne .bandit .flake8 fp (by decide)))
      have h3 := entryFor_congr (hagree _ (invOf_ne .pylint .flake8 fp (by decide)))
      have h4 := entryFor_congr (hagree _ (invOf_ne .pyre .flake8 fp (by decide)))
      rw [h1, h3, h4, hERR]
      cases b <;> cases f <;> cases p <;> cases y <;> simp [nameOf]
    | pylint =>
      have h1 := entryFor_congr (hagree _ (invOf_ne .bandit .pylint fp (by decide)))
      have h2 := entryFor_congr (hagree _ (invOf_ne .flake8 .pylint fp (by decide)))
      have h4 := entryFor_congr (hagree _ (invOf_ne .pyre .pylint fp (by decide)))
      rw [h1, h2, h4, hERR]
      cases b <;> cases f <;> cases p <;> cases y <;> simp [nameOf]
    | pyre =>
      have h1 := entryFor_congr (hagree _ (invOf_ne .bandit .pyre fp (by decide)))
      have h2 := entryFor_congr (hagree _ (invOf_ne .flake8 .pyre fp (by decide)))
      have h3 := entryFor_congr (hagree _ (invOf_ne .pylint .pyre fp (by decide)))
      rw [h1, h2, h3, hERR]
      cases b <;> cases f <;> cases p <;> cases y <;> simp [nameOf]

/-- An environment identical to `envAll0` except that exactly the flake8
invocation for `x.py` exits with status 1. -/
def envFlake8xFails : ToolEnv := fun inv =>
  if inv = ⟨["flake8", "x.py"], none⟩ then .completed "" "boom" 1
  else .completed "out" "" 0

/-- `envFlake8xFails` completes every invocation. -/
theorem envFlake8xFails_completes : EnvCompletes envFlake8xFails := by
  intro inv
  rw [envFlake8xFails]
  split
  · exact ⟨"", "boom", 1, rfl⟩
  · exact ⟨"out", "", 0, rfl⟩

/-- Witness for C2 at a concrete input: flake8 fails with exit status 1
while bandit succeeds; the comparison run is fully successful. -/
theorem c2_nonzero_exit_is_local_failure_witness :
    ∃ res calls resS callsS,
      analyze_python envFlake8xFails "x.py" none true true false false =
        (.ok res, calls) ∧
      analyze_python envAll0 "x.py" none true true false false =
        (.ok resS, callsS) ∧
      callsS = calls ∧
      calls = (if true then [invOf .bandit "x.py"] else []) ++
        (if true then [invOf .flake8 "x.py"] else []) ++
        (if false then [invOf .pylint "x.py"] else []) ++
        (if false then [invOf .pyre "x.py"] else []) ∧
      res.lookup (nameOf .flake8) =
        some ("Error: " ++ cpeStr (invOf .flake8 "x.py").argv 1) ∧
      res = resS.map (fun pr =>
        if pr.1 = nameOf .flake8 then
          (pr.1, "Error: " ++ cpeStr (invOf .flake8 "x.py").argv 1)
        else pr) :=
  c2_nonzero_exit_is_local_failure envFlake8xFails envAll0 "x.py" none
    true true false false .flake8 1 "" "boom" "out" "" (by decide) (by decide)
    envFlake8xFails_completes envAll0_completes rfl (by decide) (by decide)
    rfl
    (fun inv h => by
      rw [envAll0, envFlake8xFails,
        if_neg (show inv ≠ ⟨["flake8", "x.py"], none⟩ from h)])

/-! ## Standard error is captured but discarded -/

/-- Replace the captured standard error of a completed process. -/
def withStderr : RunResult → String → RunResult
  | .completed stdout _ rc, s => .completed stdout s rc
  | .spawnFailure m, _ => .spawnFailure m

/-- Rewrite every invocation's captured standard error. -/
def mapStderr (sigma : Invocation → String) (env : ToolEnv) : ToolEnv :=
  fun inv => withStderr (env inv) (sigma inv)

/-- A tool block never reads the captured standard error. -/
theorem runToolStep_stderr (sigma : Invocation → String) (env : ToolEnv)
    (n c : String) (cw : Option String)
    (st : Except PyExn (List (String × String)) × List Invocation) :
    runToolStep (mapStderr sigma env) n c cw st = runToolStep env n c cw st := by
  rcases st with ⟨r, calls⟩
  cases r with
  | error e => rfl
  | ok results =>
    simp only [runToolStep]
    cases hs : shlexSplit c with
    | error m => rfl
    | ok argv =>
      simp only [mapStderr]
      cases he : env ⟨argv, cw⟩ with
      | completed o e rc => cases rc <;> simp [withStderr]
      | spawnFailure m => simp [withStderr]

/-- `analyze_python` never reads the captured standard error. -/
theorem analyze_python_stderr (sigma : Invocation → String) (env : ToolEnv)
    (fp : String) (rf : Option String) (b f p y : Bool) :
    analyze_python (mapStderr sigma env) fp rf b f p y =
      analyze_python env fp rf b f p y := by
  have h1 := funext (runToolStep_stderr sigma env "bandit"
    ("bandit -r " ++ fp ++ " -q -f json") none)
  have h2 := funext (runToolStep_stderr sigma env "flake8" ("flake8 " ++ fp) none)
  have h3 := funext (runToolStep_stderr sigma env "pylint"
    ("pylint " ++ fp ++ " --output-format=json") none)
  have h4 := funext (runToolStep_stderr sigma env "pyre" "pyre check"
    (some (dirname fp)))
  unfold analyze_python
  rw [h1, h2, h3, h4]

/-- `finishRun` never reads the environment. -/
theorem finishRun_mapStderr (args : Args) (pe : String → Bool)
    (env : ToolEnv) (wf : String → Option String)
    (sigma : Invocation → String) (results : List (String × String))
    (calls : List Invocation) :
    finishRun args ⟨pe, mapStderr sigma env, wf⟩ results calls =
      finishRun args ⟨pe, env, wf⟩ results calls := by
  unfold finishRun
  cases args.report_file <;> rfl

/-- The whole run of `main` never reads any captured standard error. -/
theorem main_run_stderr (args : Args) (pe : String → Bool) (env : ToolEnv)
    (wf : String → Option String) (sigma : Invocation → String) :
    main_run args ⟨pe, mapStderr sigma env, wf⟩ = main_run args ⟨pe, env, wf⟩ := by
  unfold main_run
  dsimp only
  rw [analyze_python_stderr]
  simp only [finishRun_mapStderr]

/-- Claim C9: for every enabled tool whose subprocess exits with status
zero, the stored entry is exactly that subprocess's captured standard
output; and the whole run of `main` (results mapping, console chunks,
invocations, report file, logs) is invariant under arbitrarily rewriting
every subprocess's captured standard error, so standard error never
appears in the result mapping, the console output or the report file. -/
theorem c9_stdout_kept_stderr_discarded :
    (∀ (env : ToolEnv) (fp : String) (rf : Option String) (b f p y : Bool)
        (t : Tool) (out err : String),
      PlainStr fp → fp.data ≠ [] → EnvCompletes env →
      enabledOf t b f p y = true →
      env (invOf t fp) = .completed out err 0 →
      ∃ res calls, analyze_python env fp rf b f p y = (.ok res, calls) ∧
        res.lookup (nameOf t) = some out) ∧
    (∀ (args : Args) (pe : String → Bool) (env : ToolEnv)
        (wf : String → Option String) (sigma : Invocation → String),
      main_run args ⟨pe, mapStderr sigma env, wf⟩ =
        main_run args ⟨pe, env, wf⟩) := by
  constructor
  · intro env fp rf b f p y t out err hp hne henv ht hok
    have hNF := analyze_python_normal env fp rf b f p y hp hne henv
    have hOK : entryFor env (invOf t fp) = out := entryFor_success hok
    refine ⟨_, _, hNF, ?_⟩
    cases t with
    | bandit =>
      simp only [enabledOf] at ht
      subst ht
      simp only [if_true, nameOf, List.cons_append]
      rw [lookup_seg_eq, hOK]
    | flake8 =>
      simp only [enabledOf] at ht
      subst ht
      simp only [nameOf, List.append_assoc]
      rw [lookup_if_seg_ne _ _ _ _ _ (by decide)]
      simp only [if_true, List.cons_append]
      rw [lookup_seg_eq, hOK]
    | pylint =>
      simp only [enabledOf] at ht
      subst ht
      simp only [nameOf, List.append_assoc]
      rw [lookup_if_seg_ne _ _ _ _ _ (by decide),
        lookup_if_seg_ne _ _ _ _ _ (by decide)]
      simp only [if_true, List.cons_append]
      rw [lookup_seg_eq, hOK]
    | pyre =>
      simp only [enabledOf] at ht
      subst ht
      simp only [nameOf, List.append_assoc]
      rw [lookup_if_seg_ne _ _ _ _ _ (by decide),
        lookup_if_seg_ne _ _ _ _ _ (by decide),
        lookup_if_seg_ne _ _ _ _ _ (by decide)]
      simp only [if_true, List.cons_append]
      rw [lookup_seg_eq, hOK]
  · exact main_run_stderr

/-- Witness for C9: bandit succeeds with output `"out"`, and a concrete
stderr rewrite leaves a concrete python run unchanged. -/
theorem c9_stdout_kept_stderr_discarded_witness :
    (∃ res calls,
      analyze_python envAll0 "x.py" none true false false false =
        (.ok res, calls) ∧
      res.lookup (nameOf .bandit) = some "out") ∧
    main_run ⟨"x.py", "python", none, true, false, false, false⟩
        ⟨fun _ => true, mapStderr (fun _ => "junk") envAll0, fun _ => none⟩ =
      main_run ⟨"x.py", "python", none, true, false, false, false⟩
        ⟨fun _ => true, envAll0, fun _ => none⟩ :=
  ⟨c9_stdout_kept_stderr_discarded.1 envAll0 "x.py" none true false false false
      .bandit "out" "" (by decide) (by decide) envAll0_completes rfl rfl,
    c9_stdout_kept_stderr_discarded.2
      ⟨"x.py", "python", none, true, false, false, false⟩
      (fun _ => true) envAll0 (fun _ => none) (fun _ => "junk")⟩
